import Mathlib

/-!
Verification of the prescription-image analysis adapter
(`src/services/geminiService.ts` and its UI callers).

JavaScript strings are embedded as `List Char`; `undefined` is embedded as
`Option.none`; a thrown exception is embedded as the `error` side of `Except`.
All definitions are executable and translated directly from the source.
-/

set_option autoImplicit false

/-- JavaScript `String.prototype.split` with a single-character separator:
returns the (always nonempty) list of segments between occurrences of `sep`. -/
def jsSplit (sep : Char) : List Char → List (List Char)
  | [] => [[]]
  | c :: rest =>
    if c = sep then [] :: jsSplit sep rest
    else
      match jsSplit sep rest with
      | [] => [[c]]
      | p :: ps => (c :: p) :: ps

/-- JavaScript falsiness for a possibly-`undefined` string:
`undefined` and the empty string are falsy. -/
def jsFalsy : Option (List Char) → Bool
  | none => true
  | some s => s.isEmpty

/-- Does `pre` occur as a leading segment of `s`. -/
def hasPre : List Char → List Char → Bool
  | [], _ => true
  | _ :: _, [] => false
  | p :: ps, c :: cs => p == c && hasPre ps cs

/-- JavaScript `String.prototype.includes`: substring occurrence test. -/
def containsSub (hay needle : List Char) : Bool :=
  if hasPre needle hay then true
  else
    match hay with
    | [] => false
    | _ :: rest => containsSub rest needle

/-- Whitespace removed by JavaScript `String.prototype.trim`
(the common code points; exotic Unicode spaces are not used by the model). -/
def jsWhitespace (c : Char) : Bool :=
  c == ' ' || c == '\t' || c == '\n' || c == '\r' || c == '\x0b' ||
  c == '\x0c' || c == '\xa0'

/-- JavaScript `String.prototype.trim`. -/
def jsTrim (s : List Char) : List Char :=
  ((s.dropWhile jsWhitespace).reverse.dropWhile jsWhitespace).reverse

/-- The `{ mimeType, data }` pair produced by `fileToBase64`
(named `EncodedImage` in the specification). -/
structure EncodedImage where
  mimeType : List Char
  data : List Char
deriving DecidableEq, Repr

/-- The failure taxonomy of the adapter.  Each constructor corresponds to one
`throw`/`reject` site of the source (carrying that site's message), except
`jsTypeError`, which embeds the runtime `TypeError` raised by dereferencing
`undefined`. -/
inductive AnalyzeError where
  | configurationError (msg : List Char)
  | malformedEncoding (msg : List Char)
  | modelCallError (msg : List Char)
  | responseFormatError (msg : List Char)
  | jsTypeError
deriving DecidableEq, Repr

/-- Message of the `reject` in `fileToBase64`. -/
def encodeErrorMsg : List Char := "Failed to parse base64 string.".toList

/-- Message of the missing-credential `throw` in `analyzeImage`. -/
def configErrorMsg : List Char := "API key is not configured.".toList

/-- Message of the JSON-decode-failure `throw` in `analyzeImage`. -/
def parseErrorMsg : List Char :=
  "Failed to parse the response from the AI model. The format might be incorrect.".toList

/-- Message of the generic model-failure `throw` in `analyzeImage`. -/
def modelErrorMsg : List Char :=
  "Failed to get a response from the AI model.".toList

/-- The substring tested by `error.message.includes` in the catch block. -/
def jsonWord : List Char := "JSON".toList

/-- The parsing step of `fileToBase64` applied to the reader result string:
`result.split(',')[0].split(':')[1].split(';')[0]` is the mime type and
`result.split(',')[1]` the payload; if `split(':')[1]` is `undefined`, the
subsequent `.split(';')` raises a `TypeError`; if the mime type or payload is
falsy the promise rejects with `"Failed to parse base64 string."`. -/
def fileToBase64 (result : List Char) : Except AnalyzeError EncodedImage :=
  match (jsSplit ':' ((jsSplit ',' result).headD []))[1]? with
  | none => .error .jsTypeError
  | some afterColon =>
    let mimeType := (jsSplit ';' afterColon).headD []
    let data := (jsSplit ',' result)[1]?
    if mimeType.isEmpty || jsFalsy data then
      .error (.malformedEncoding encodeErrorMsg)
    else
      .ok ⟨mimeType, data.getD []⟩

deriving instance DecidableEq for Except

/-- Sanity check of the embedded parse on a well-formed data URL. -/
theorem fileToBase64_sample_ok : fileToBase64 "data:image/png;base64,AAAA".toList =
    .ok ⟨"image/png".toList, "AAAA".toList⟩ := by decide

/-- Sanity check of the embedded parse on a data URL with an empty media type. -/
theorem fileToBase64_sample_emptyMime : fileToBase64 "data:;base64,AAAA".toList =
    .error (.malformedEncoding encodeErrorMsg) := by decide

/-- JSON values as produced by `JSON.parse`.  A number is kept as its raw
literal token: the source never inspects numeric values (its schema is all
strings and nulls), so the IEEE-754 conversion performed by the platform is
abstracted away. -/
inductive Json where
  | null
  | bool (b : Bool)
  | num (raw : List Char)
  | str (s : List Char)
  | arr (elems : List Json)
  | obj (fields : List (List Char × Json))

/-- Whitespace accepted between JSON tokens (RFC 8259). -/
def jsonWs (c : Char) : Bool :=
  c == ' ' || c == '\t' || c == '\n' || c == '\r'

/-- Drop leading JSON whitespace. -/
def skipWs (s : List Char) : List Char := s.dropWhile jsonWs

/-- Value of one hexadecimal digit. -/
def hexVal (c : Char) : Option Nat :=
  if '0' ≤ c ∧ c ≤ '9' then some (c.toNat - '0'.toNat)
  else if 'a' ≤ c ∧ c ≤ 'f' then some (c.toNat - 'a'.toNat + 10)
  else if 'A' ≤ c ∧ c ≤ 'F' then some (c.toNat - 'A'.toNat + 10)
  else none

/-- The single-character JSON string escapes. -/
def escChar : Char → Option Char
  | '"' => some '"'
  | '\\' => some '\\'
  | '/' => some '/'
  | 'b' => some (Char.ofNat 8)
  | 'f' => some (Char.ofNat 12)
  | 'n' => some '\n'
  | 'r' => some '\r'
  | 't' => some '\t'
  | _ => none

/-- Parse the body of a JSON string after its opening quote, returning the
decoded content and the input remaining after the closing quote.  Raw control
characters are rejected, as `JSON.parse` rejects them. -/
def parseStringBody : List Char → Option (List Char × List Char)
  | [] => none
  | '"' :: rest => some ([], rest)
  | '\\' :: e :: rest =>
    if e = 'u' then
      match rest with
      | h1 :: h2 :: h3 :: h4 :: rest2 =>
        match hexVal h1, hexVal h2, hexVal h3, hexVal h4, parseStringBody rest2 with
        | some v1, some v2, some v3, some v4, some (s, r) =>
          some (Char.ofNat (((v1 * 16 + v2) * 16 + v3) * 16 + v4) :: s, r)
        | _, _, _, _, _ => none
      | _ => none
    else
      match escChar e, parseStringBody rest with
      | some ch, some (s, r) => some (ch :: s, r)
      | _, _ => none
  | c :: rest =>
    if c.toNat < 32 then none
    else
      match parseStringBody rest with
      | some (s, r) => some (c :: s, r)
      | none => none

/-- Longest leading run of decimal digits, with the remaining input. -/
def digitSpan : List Char → List Char × List Char
  | [] => ([], [])
  | c :: rest =>
    if c.isDigit then
      let (d, r) := digitSpan rest
      (c :: d, r)
    else ([], c :: rest)

/-- Parse a JSON number token (RFC 8259 grammar), returning its raw text and
the remaining input. -/
def parseNumber (input : List Char) : Option (List Char × List Char) :=
  let (negPart, s1) :=
    match input with
    | '-' :: r => (['-'], r)
    | _ => ([], input)
  match s1 with
  | [] => none
  | c :: r =>
    if ¬ c.isDigit then none
    else
      let (intPart, s2) :=
        if c = '0' then (['0'], r)
        else
          let (d, r2) := digitSpan r
          (c :: d, r2)
      let fracRes : Option (List Char × List Char) :=
        match s2 with
        | '.' :: r3 =>
          match digitSpan r3 with
          | ([], _) => none
          | (d, r4) => some ('.' :: d, r4)
        | _ => some ([], s2)
      match fracRes with
      | none => none
      | some (fracPart, s3) =>
        let expRes : Option (List Char × List Char) :=
          match s3 with
          | e :: r5 =>
            if e = 'e' ∨ e = 'E' then
              let (sign, r6) :=
                match r5 with
                | '+' :: r7 => (['+'], r7)
                | '-' :: r7 => (['-'], r7)
                | _ => ([], r5)
              match digitSpan r6 with
              | ([], _) => none
              | (d, r8) => some (e :: (sign ++ d), r8)
            else some ([], s3)
          | [] => some ([], s3)
        match expRes with
        | none => none
        | some (expPart, s4) =>
          some (negPart ++ intPart ++ fracPart ++ expPart, s4)

/-- Drop `pre` from the front of `s` when `pre` is a leading segment. -/
def stripPre : List Char → List Char → Option (List Char)
  | [], s => some s
  | _ :: _, [] => none
  | p :: ps, c :: cs => if p = c then stripPre ps cs else none

mutual

/-- Recursive-descent parser for one JSON value (fuel-indexed; `jsonParse`
supplies fuel exceeding the input length, which every recursive call strictly
consumes, so the fuel never runs out on real input).  Returns the value and
the remaining input. -/
def parseValue : Nat → List Char → Option (Json × List Char)
  | 0, _ => none
  | fuel + 1, input =>
    match skipWs input with
    | [] => none
    | c :: rest =>
      if c = '"' then
        match parseStringBody rest with
        | some (s, r) => some (.str s, r)
        | none => none
      else if c = '\x7b' then
        match skipWs rest with
        | '\x7d' :: r => some (.obj [], r)
        | s =>
          match parseMember fuel s with
          | none => none
          | some (kv, r) =>
            match parseObjTail fuel r with
            | some (kvs, r2) => some (.obj (kv :: kvs), r2)
            | none => none
      else if c = '[' then
        match skipWs rest with
        | ']' :: r => some (.arr [], r)
        | s =>
          match parseValue fuel s with
          | none => none
          | some (v, r) =>
            match parseArrayTail fuel r with
            | some (vs, r2) => some (.arr (v :: vs), r2)
            | none => none
      else if c = 't' then
        match stripPre "rue".toList rest with
        | some r => some (.bool true, r)
        | none => none
      else if c = 'f' then
        match stripPre "alse".toList rest with
        | some r => some (.bool false, r)
        | none => none
      else if c = 'n' then
        match stripPre "ull".toList rest with
        | some r => some (.null, r)
        | none => none
      else
        match parseNumber (c :: rest) with
        | some (raw, r) => some (.num raw, r)
        | none => none

/-- Parse one `"key": value` object member (leading whitespace allowed). -/
def parseMember : Nat → List Char → Option ((List Char × Json) × List Char)
  | 0, _ => none
  | fuel + 1, input =>
    match skipWs input with
    | '"' :: rest =>
      match parseStringBody rest with
      | none => none
      | some (key, r) =>
        match skipWs r with
        | ':' :: r2 =>
          match parseValue fuel r2 with
          | some (v, r3) => some ((key, v), r3)
          | none => none
        | _ => none
    | _ => none

/-- After one array element: either `]` closes the array or `,` is followed
by a further element (so a trailing comma is rejected). -/
def parseArrayTail : Nat → List Char → Option (List Json × List Char)
  | 0, _ => none
  | fuel + 1, input =>
    match skipWs input with
    | ']' :: rest => some ([], rest)
    | ',' :: r =>
      match parseValue fuel r with
      | none => none
      | some (v, r2) =>
        match parseArrayTail fuel r2 with
        | some (vs, r3) => some (v :: vs, r3)
        | none => none
    | _ => none

/-- After one object member: either the closing brace ends the object or `,`
is followed by a further member. -/
def parseObjTail : Nat → List Char → Option (List (List Char × Json) × List Char)
  | 0, _ => none
  | fuel + 1, input =>
    match skipWs input with
    | '\x7d' :: rest => some ([], rest)
    | ',' :: r =>
      match parseMember fuel r with
      | none => none
      | some (kv, r2) =>
        match parseObjTail fuel r2 with
        | some (kvs, r3) => some (kv :: kvs, r3)
        | none => none
    | _ => none

end

/-- JavaScript `JSON.parse`: one JSON value, optionally surrounded by
whitespace; anything else is a parse failure (`none` embeds the thrown
`SyntaxError`). -/
def jsonParse (s : List Char) : Option Json :=
  match parseValue (s.length + 1) s with
  | some (j, rest) => if (skipWs rest).isEmpty then some j else none
  | none => none

/-- The `Medicine` record of `geminiService.ts`: `name` is required by the
declared schema, the other fields are `string | null`. -/
structure Medicine where
  name : List Char
  dosage : Option (List Char)
  frequency : Option (List Char)
  quantity : Option (List Char)
  notes : Option (List Char)
deriving DecidableEq, Repr

/-- The `PrescriptionData` record of `geminiService.ts`. -/
structure PrescriptionData where
  patientName : Option (List Char)
  medicines : List Medicine
  otherInfo : Option (List Char)
deriving DecidableEq, Repr

/-- JavaScript object property lookup on the parsed member list: with
duplicate keys the later member wins, as in `JSON.parse`. -/
def lookupLast : List (List Char × Json) → List Char → Option Json
  | [], _ => none
  | (k, v) :: rest, key =>
    match lookupLast rest key with
    | some r => some r
    | none => if k = key then some v else none

/-- Read a `string | null` property: JSON `null` and an absent property both
read as `none` (the UI treats `null` and `undefined` alike); any other
non-string value fails the typed reading. -/
def readOptStr (fields : List (List Char × Json)) (key : List Char) :
    Option (Option (List Char)) :=
  match lookupLast fields key with
  | none => some none
  | some .null => some none
  | some (.str s) => some (some s)
  | some _ => none

/-- Typed reading of one medicine object against the declared schema
(`name` required, the rest `string | null`). -/
def readMedicine : Json → Option Medicine
  | .obj fields =>
    match lookupLast fields "name".toList with
    | some (.str n) =>
      match readOptStr fields "dosage".toList, readOptStr fields "frequency".toList,
            readOptStr fields "quantity".toList, readOptStr fields "notes".toList with
      | some d, some f, some q, some no => some ⟨n, d, f, q, no⟩
      | _, _, _, _ => none
    | _ => none
  | _ => none

/-- Typed reading of each element of the `medicines` array. -/
def readMedicines : List Json → Option (List Medicine)
  | [] => some []
  | j :: rest =>
    match readMedicine j, readMedicines rest with
    | some m, some ms => some (m :: ms)
    | _, _ => none

/-- The typed view of a parsed reply that the `as PrescriptionData` cast
asserts and the UI consumes: the reply conforms to the declared schema
exactly when this reading succeeds.  The source performs no such runtime
check; this definition is used to state what conformance would mean. -/
def decodePrescription : Json → Option PrescriptionData
  | .obj fields =>
    match readOptStr fields "patientName".toList,
          (match lookupLast fields "medicines".toList with
           | some (.arr xs) => readMedicines xs
           | _ => none),
          readOptStr fields "otherInfo".toList with
    | some pn, some ms, some oi => some ⟨pn, ms, oi⟩
    | _, _, _ => none
  | _ => none

/-- Outcome of the single awaited `ai.models.generateContent` call: either a
response carrying its `text` field, or a thrown transport/model error
carrying its `message`. -/
inductive ModelOutcome where
  | response (text : List Char)
  | failure (message : List Char)

/-- The structured-mode `analyzeImage` of `geminiService.ts`.  Inputs are the
configured `process.env.API_KEY` (`none` embeds an unset variable), the data
URL the `FileReader` produced for the submitted file, and the outcome of the
model call.  Control flow follows the source: the credential check precedes
the file read, which precedes the call; inside the try block the reply text
is trimmed and fed to `JSON.parse`, whose `SyntaxError` message always
contains the substring `JSON` on the target platform and is therefore
re-thrown by the catch block as the response-format error, while any other
caught error is re-thrown as the format error or the generic model error
according to whether its message contains `JSON`. -/
def analyzeImage (apiKey : Option (List Char)) (readerResult : List Char)
    (outcome : ModelOutcome) : Except AnalyzeError Json :=
  if jsFalsy apiKey then .error (.configurationError configErrorMsg)
  else
    match fileToBase64 readerResult with
    | .error e => .error e
    | .ok _ =>
      match outcome with
      | .failure msg =>
        if containsSub msg jsonWord then .error (.responseFormatError parseErrorMsg)
        else .error (.modelCallError modelErrorMsg)
      | .response text =>
        match jsonParse (jsTrim text) with
        | some j => .ok j
        | none => .error (.responseFormatError parseErrorMsg)

/-- Modelled from the spec: the free-text variant of the analysis client
(the version of `geminiService.ts` the second `App` under `src/unnamed`
calls) is not under `src/`.  Per the specification it shares the credential
check, encoder, and generic error mapping, and returns the model's raw text
field unmodified, with no JSON-decode distinction. -/
def analyzeImageFreeText (apiKey : Option (List Char)) (readerResult : List Char)
    (outcome : ModelOutcome) : Except AnalyzeError (List Char) :=
  if jsFalsy apiKey then .error (.configurationError configErrorMsg)
  else
    match fileToBase64 readerResult with
    | .error e => .error e
    | .ok _ =>
      match outcome with
      | .failure _ => .error (.modelCallError modelErrorMsg)
      | .response text => .ok text

/-- Sanity check of the JSON embedding on a small composite document. -/
theorem jsonParse_sample : jsonParse " [null, true, -1.5e2] ".toList =
    some (.arr [.null, .bool true, .num "-1.5e2".toList]) := rfl

/-- Sanity check that a leading-zero numeral is rejected, as by `JSON.parse`. -/
theorem jsonParse_leadingZero : jsonParse "01".toList = none := rfl

/-- The base64 alphabet (RFC 4648), in index order. -/
def b64AlphabetList : List Char :=
  "ABCDEFGHIJKLMNOPQRSTUVWXYZabcdefghijklmnopqrstuvwxyz0123456789+/".toList

/-- Character for one six-bit group. -/
def b64Char (n : Nat) : Char := b64AlphabetList.getD n 'A'

/-- Scan for a character in the alphabet from position `i`. -/
def b64IndexFrom : List Char → Nat → Char → Option Nat
  | [], _, _ => none
  | a :: rest, i, c => if a = c then some i else b64IndexFrom rest (i + 1) c

/-- Index of a character in the base64 alphabet. -/
def b64Index (c : Char) : Option Nat := b64IndexFrom b64AlphabetList 0 c

/-- Regroup eight-bit bytes into six-bit groups, most significant bits first
(the final group of a partial block is zero-padded on the right). -/
def bytesToSextets : List Nat → List Nat
  | [] => []
  | [a] => [a / 4, a % 4 * 16]
  | [a, b] => [a / 4, a % 4 * 16 + b / 16, b % 16 * 4]
  | a :: b :: c :: rest =>
    a / 4 :: (a % 4 * 16 + b / 16) :: (b % 16 * 4 + c / 64) :: c % 64 ::
      bytesToSextets rest

/-- Padding characters appended for a byte count `n`. -/
def b64Padding (n : Nat) : List Char :=
  if n % 3 = 1 then ['=', '=']
  else if n % 3 = 2 then ['=']
  else []

/-- Modelled from the spec: the browser builtin `FileReader.readAsDataURL`
(not part of this repository) base64-encodes the blob per RFC 4648.  This is
that encoding. -/
def b64Encode (bs : List Nat) : List Char :=
  (bytesToSextets bs).map b64Char ++ b64Padding bs.length

/-- Alphabet positions of each character of a base64 payload. -/
def mapB64Index : List Char → Option (List Nat)
  | [] => some []
  | c :: rest =>
    match b64Index c, mapB64Index rest with
    | some n, some ns => some (n :: ns)
    | _, _ => none

/-- Reassemble bytes from six-bit groups; a leftover group of one sextet
cannot arise from an encoding and is rejected. -/
def b64DecodeSextets : List Nat → Option (List Nat)
  | [] => some []
  | [_] => none
  | [s1, s2] => some [s1 * 4 + s2 / 16]
  | [s1, s2, s3] => some [s1 * 4 + s2 / 16, s2 % 16 * 16 + s3 / 4]
  | s1 :: s2 :: s3 :: s4 :: rest =>
    match b64DecodeSextets rest with
    | some tail =>
      some ((s1 * 4 + s2 / 16) :: (s2 % 16 * 16 + s3 / 4) :: (s3 % 4 * 64 + s4) :: tail)
    | none => none

/-- Standard base64 decoding of a payload string: padding is stripped, each
remaining character is mapped to its alphabet position, and the six-bit
groups are reassembled into bytes. -/
def b64Decode (s : List Char) : Option (List Nat) :=
  match mapB64Index (s.filter (fun c => c != '=')) with
  | none => none
  | some sx => b64DecodeSextets sx

/-- Modelled from the spec: the reader result for a blob of the given media
type and bytes, in the data URL shape `FileReader.readAsDataURL` produces. -/
def readAsDataURL (mime : List Char) (bytes : List Nat) : List Char :=
  "data:".toList ++ mime ++ ";base64,".toList ++ b64Encode bytes

/-- Sanity check of the encoding against the RFC 4648 test vectors. -/
theorem b64Encode_rfcVectors : b64Encode [77, 97, 110] = "TWFu".toList ∧
    b64Encode [77, 97] = "TWE=".toList ∧ b64Encode [77] = "TQ==".toList := by decide

/-- A split never produces the empty segment list. -/
theorem jsSplit_ne_nil (sep : Char) (l : List Char) : jsSplit sep l ≠ [] := by
  induction l with
  | nil => simp [jsSplit]
  | cons c rest ih =>
    simp only [jsSplit]
    split
    · simp
    · split
      · simp
      · simp

/-- Splitting a string that does not contain the separator returns it whole. -/
theorem jsSplit_of_not_mem (sep : Char) (xs : List Char) (h : sep ∉ xs) :
    jsSplit sep xs = [xs] := by
  induction xs with
  | nil => rfl
  | cons c rest ih =>
    have h1 : ¬ c = sep := fun hc => h (hc ▸ List.mem_cons_self c rest)
    have h2 : sep ∉ rest := fun hm => h (List.mem_cons_of_mem c hm)
    simp [jsSplit, h1, ih h2]

/-- Splitting at the first separator occurrence peels off the part before it. -/
theorem jsSplit_append (sep : Char) (xs ys : List Char) (h : sep ∉ xs) :
    jsSplit sep (xs ++ sep :: ys) = xs :: jsSplit sep ys := by
  induction xs with
  | nil => simp [jsSplit]
  | cons c rest ih =>
    have h1 : ¬ c = sep := fun hc => h (hc ▸ List.mem_cons_self c rest)
    have h2 : sep ∉ rest := fun hm => h (List.mem_cons_of_mem c hm)
    simp [jsSplit, h1, ih h2]

/-- A well-formed reader result reused as concrete input. -/
def sampleDataUrl : List Char := "data:image/png;base64,AAAA".toList

/-- A concrete configured credential. -/
def sampleKey : List Char := "test-key".toList

/-- The non-prescription reply of the specification. -/
def nonRxReply : List Char :=
  "\x7b\"patientName\":\"\",\"medicines\":[],\"otherInfo\":\"A landscape photo.\"\x7d".toList

/-- The JSON value `JSON.parse` produces for `nonRxReply`. -/
def nonRxJson : Json :=
  .obj [("patientName".toList, .str "".toList),
        ("medicines".toList, .arr []),
        ("otherInfo".toList, .str "A landscape photo.".toList)]

/-- The one-medicine reply of the specification. -/
def janeReply : List Char :=
  "\x7b\"patientName\":\"Jane Doe\",\"medicines\":[\x7b\"name\":\"Amoxicillin\",\"dosage\":\"500mg\",\"frequency\":\"twice daily\",\"quantity\":\"20\",\"notes\":null\x7d],\"otherInfo\":null\x7d".toList

/-- The JSON value `JSON.parse` produces for `janeReply`. -/
def janeJson : Json :=
  .obj [("patientName".toList, .str "Jane Doe".toList),
        ("medicines".toList, .arr [
          .obj [("name".toList, .str "Amoxicillin".toList),
                ("dosage".toList, .str "500mg".toList),
                ("frequency".toList, .str "twice daily".toList),
                ("quantity".toList, .str "20".toList),
                ("notes".toList, .null)]]),
        ("otherInfo".toList, .null)]

/-- Claim C1: with no API credential configured, `analyzeImage` fails with the
configuration error, and the result does not depend on the reader result or on
the model call: the error is produced before any file read or network
activity (the quantification over `url` and `o` expresses that independence). -/
theorem analyzeImage_noKey (key : Option (List Char)) (hk : jsFalsy key = true)
    (url : List Char) (o : ModelOutcome) :
    analyzeImage key url o = .error (.configurationError configErrorMsg) := by
  simp [analyzeImage, hk]

/-- Witness for C1 at an unset credential, an arbitrary reader result and an
arbitrary model outcome. -/
theorem analyzeImage_noKey_witness :
    jsFalsy none = true ∧
    analyzeImage none sampleDataUrl (.response "x".toList)
      = .error (.configurationError configErrorMsg) :=
  ⟨rfl, analyzeImage_noKey none rfl sampleDataUrl (.response "x".toList)⟩

/-- Claim C2: in structured mode the non-prescription reply yields the parsed
object whose typed reading has empty `patientName`, empty `medicines` and the
description in `otherInfo`. -/
theorem analyzeImage_nonPrescription (key url : List Char) (enc : EncodedImage)
    (hk : jsFalsy (some key) = false) (hf : fileToBase64 url = .ok enc) :
    analyzeImage (some key) url (.response nonRxReply) = .ok nonRxJson ∧
    decodePrescription nonRxJson =
      some ⟨some "".toList, [], some "A landscape photo.".toList⟩ := by
  constructor
  · simp only [analyzeImage, hk, hf]
    rfl
  · rfl

/-- Witness for C2 at the sample credential and data URL. -/
theorem analyzeImage_nonPrescription_witness :
    jsFalsy (some sampleKey) = false ∧
    fileToBase64 sampleDataUrl = .ok ⟨"image/png".toList, "AAAA".toList⟩ ∧
    (analyzeImage (some sampleKey) sampleDataUrl (.response nonRxReply) = .ok nonRxJson ∧
     decodePrescription nonRxJson =
       some ⟨some "".toList, [], some "A landscape photo.".toList⟩) :=
  ⟨rfl, by decide,
   analyzeImage_nonPrescription sampleKey sampleDataUrl ⟨"image/png".toList, "AAAA".toList⟩
     rfl (by decide)⟩

set_option maxRecDepth 4096 in
/-- Claim C3: in structured mode the reply text is trimmed and parsed as JSON;
the one-medicine reply (here surrounded by whitespace to exhibit trimming)
yields the parsed object whose typed reading has exactly one medicine with all
fields as in the reply. -/
theorem analyzeImage_structuredParse (key url : List Char) (enc : EncodedImage)
    (hk : jsFalsy (some key) = false) (hf : fileToBase64 url = .ok enc) :
    analyzeImage (some key) url
        (.response ([' ', '\n'] ++ janeReply ++ ['\n', ' '])) = .ok janeJson ∧
    decodePrescription janeJson =
      some ⟨some "Jane Doe".toList,
            [⟨"Amoxicillin".toList, some "500mg".toList, some "twice daily".toList,
              some "20".toList, none⟩],
            none⟩ := by
  constructor
  · simp only [analyzeImage, hk, hf]
    rfl
  · rfl

/-- Witness for C3 at the sample credential and data URL. -/
theorem analyzeImage_structuredParse_witness :
    jsFalsy (some sampleKey) = false ∧
    fileToBase64 sampleDataUrl = .ok ⟨"image/png".toList, "AAAA".toList⟩ ∧
    (analyzeImage (some sampleKey) sampleDataUrl
        (.response ([' ', '\n'] ++ janeReply ++ ['\n', ' '])) = .ok janeJson ∧
     decodePrescription janeJson =
       some ⟨some "Jane Doe".toList,
             [⟨"Amoxicillin".toList, some "500mg".toList, some "twice daily".toList,
               some "20".toList, none⟩],
             none⟩) :=
  ⟨rfl, by decide,
   analyzeImage_structuredParse sampleKey sampleDataUrl ⟨"image/png".toList, "AAAA".toList⟩
     rfl (by decide)⟩

/-- Claim C4: in structured mode every reply whose (trimmed) body is not valid
JSON makes `analyzeImage` fail with the response-format error — not the
generic model error. -/
theorem analyzeImage_invalidJson (key url text : List Char) (enc : EncodedImage)
    (hk : jsFalsy (some key) = false) (hf : fileToBase64 url = .ok enc)
    (hp : jsonParse (jsTrim text) = none) :
    analyzeImage (some key) url (.response text)
      = .error (.responseFormatError parseErrorMsg) := by
  simp [analyzeImage, hk, hf, hp]

/-- Witness for C4 at a truncated reply. -/
theorem analyzeImage_invalidJson_witness :
    jsFalsy (some sampleKey) = false ∧
    fileToBase64 sampleDataUrl = .ok ⟨"image/png".toList, "AAAA".toList⟩ ∧
    jsonParse (jsTrim "not json".toList) = none ∧
    analyzeImage (some sampleKey) sampleDataUrl (.response "not json".toList)
      = .error (.responseFormatError parseErrorMsg) :=
  ⟨rfl, by decide, rfl,
   analyzeImage_invalidJson sampleKey sampleDataUrl "not json".toList
     ⟨"image/png".toList, "AAAA".toList⟩ rfl (by decide) rfl⟩

/-- Claim C8: in free-text mode the returned string is the model's raw text
field itself, whatever it is — no trimming, no decoding. -/
theorem analyzeImageFreeText_raw (key url text : List Char) (enc : EncodedImage)
    (hk : jsFalsy (some key) = false) (hf : fileToBase64 url = .ok enc) :
    analyzeImageFreeText (some key) url (.response text) = .ok text := by
  simp [analyzeImageFreeText, hk, hf]

/-- Witness for C8 at a text with surrounding whitespace, returned verbatim. -/
theorem analyzeImageFreeText_raw_witness :
    jsFalsy (some sampleKey) = false ∧
    fileToBase64 sampleDataUrl = .ok ⟨"image/png".toList, "AAAA".toList⟩ ∧
    analyzeImageFreeText (some sampleKey) sampleDataUrl (.response "  raw text \n".toList)
      = .ok "  raw text \n".toList :=
  ⟨rfl, by decide,
   analyzeImageFreeText_raw sampleKey sampleDataUrl "  raw text \n".toList
     ⟨"image/png".toList, "AAAA".toList⟩ rfl (by decide)⟩

/-- Claim C10: for a reader result with no colon before its first comma the
mime-type extraction dereferences an absent split component, so `fileToBase64`
raises the runtime `TypeError` — by disjointness of the error constructors it
neither rejects with the malformed-encoding error nor returns; conversely
(the contrapositive of this theorem) the malformed-encoding branch and the
successful return are reached only when that segment contains a colon. -/
theorem fileToBase64_noColon (r : List Char)
    (h : ':' ∉ (jsSplit ',' r).headD []) :
    fileToBase64 r = .error AnalyzeError.jsTypeError := by
  have h1 : (jsSplit ':' ((jsSplit ',' r).headD []))[1]? = none := by
    rw [jsSplit_of_not_mem ':' _ h]
    rfl
  unfold fileToBase64
  rw [h1]

/-- Witness for C10 at a reader result that is not data-URI shaped. -/
theorem fileToBase64_noColon_witness :
    ':' ∉ (jsSplit ',' "abc".toList).headD [] ∧
    fileToBase64 "abc".toList = .error AnalyzeError.jsTypeError :=
  ⟨by decide, fileToBase64_noColon "abc".toList (by decide)⟩

/-- A transport-level failure message that happens to contain the substring
`JSON` — the hosted API does emit such messages (for example on a malformed
request body). -/
def failMsgWithJson : List Char := "Invalid JSON payload received.".toList

/-- Counterexample to claim C5 as stated: this model-call failure is not a
JSON decode failure, yet `analyzeImage` re-raises it as the response-format
error, not as the generic model error, because the catch block classifies the
caught error only by whether its message contains `JSON`. -/
theorem analyzeImage_failure_not_always_generic :
    analyzeImage (some sampleKey) sampleDataUrl (.failure failMsgWithJson)
      = .error (.responseFormatError parseErrorMsg) ∧
    analyzeImage (some sampleKey) sampleDataUrl (.failure failMsgWithJson)
      ≠ .error (.modelCallError modelErrorMsg) := by
  have heq : analyzeImage (some sampleKey) sampleDataUrl (.failure failMsgWithJson)
      = Except.error (.responseFormatError parseErrorMsg) := rfl
  refine ⟨heq, ?_⟩
  intro hcontra
  rw [heq] at hcontra
  exact absurd (Except.error.inj hcontra) (by decide)

/-- Claim C5 as amended: a failure of the model call whose message does not
contain the substring `JSON` is re-raised as the generic model error (those
whose message does contain `JSON` are re-raised as the response-format error,
as the counterexample shows). -/
theorem analyzeImage_transportError (key url msg : List Char) (enc : EncodedImage)
    (hk : jsFalsy (some key) = false) (hf : fileToBase64 url = .ok enc)
    (hm : containsSub msg jsonWord = false) :
    analyzeImage (some key) url (.failure msg)
      = .error (.modelCallError modelErrorMsg) := by
  simp [analyzeImage, hk, hf, hm]

/-- Witness for the amended C5 at a plain network failure message. -/
theorem analyzeImage_transportError_witness :
    jsFalsy (some sampleKey) = false ∧
    fileToBase64 sampleDataUrl = .ok ⟨"image/png".toList, "AAAA".toList⟩ ∧
    containsSub "network timeout".toList jsonWord = false ∧
    analyzeImage (some sampleKey) sampleDataUrl (.failure "network timeout".toList)
      = .error (.modelCallError modelErrorMsg) :=
  ⟨rfl, by decide, by decide,
   analyzeImage_transportError sampleKey sampleDataUrl "network timeout".toList
     ⟨"image/png".toList, "AAAA".toList⟩ rfl (by decide) (by decide)⟩

/-- Counterexample to claim C6 as stated: the reply is syntactically valid
JSON but violates the declared schema (all three required top-level keys are
missing — its typed reading fails), yet `analyzeImage` returns it as a result
instead of failing with the response-format error: the `as PrescriptionData`
cast performs no runtime validation. -/
theorem analyzeImage_schemaViolation_returned :
    analyzeImage (some sampleKey) sampleDataUrl (.response "\x7b\x7d".toList)
      = .ok (Json.obj []) ∧
    decodePrescription (Json.obj []) = none ∧
    analyzeImage (some sampleKey) sampleDataUrl (.response "\x7b\x7d".toList)
      ≠ .error (.responseFormatError parseErrorMsg) := by
  refine ⟨rfl, rfl, ?_⟩
  intro hcontra
  have : Except.ok (Json.obj []) =
      Except.error (ε := AnalyzeError) (.responseFormatError parseErrorMsg) := hcontra
  exact Except.noConfusion this

/-- Claim C6 as amended: in structured mode `analyzeImage` fails with the
response-format error exactly for syntactically invalid JSON; every reply
whose trimmed body parses as JSON — schema-conforming or not — is returned
as the (uninspected) result. -/
theorem analyzeImage_noSchemaValidation (key url text : List Char)
    (enc : EncodedImage) (j : Json)
    (hk : jsFalsy (some key) = false) (hf : fileToBase64 url = .ok enc)
    (hp : jsonParse (jsTrim text) = some j) :
    analyzeImage (some key) url (.response text) = .ok j := by
  simp [analyzeImage, hk, hf, hp]

/-- Witness for the amended C6 at a schema-violating but well-formed reply. -/
theorem analyzeImage_noSchemaValidation_witness :
    jsFalsy (some sampleKey) = false ∧
    fileToBase64 sampleDataUrl = .ok ⟨"image/png".toList, "AAAA".toList⟩ ∧
    jsonParse (jsTrim "[1]".toList) = some (.arr [.num "1".toList]) ∧
    analyzeImage (some sampleKey) sampleDataUrl (.response "[1]".toList)
      = .ok (.arr [.num "1".toList]) :=
  ⟨rfl, by decide, rfl,
   analyzeImage_noSchemaValidation sampleKey sampleDataUrl "[1]".toList
     ⟨"image/png".toList, "AAAA".toList⟩ (.arr [.num "1".toList]) rfl (by decide) rfl⟩

/-- Claim C7: for every reader result whose parse reaches the emptiness test
(the mime-type extraction found a colon, per C10), `fileToBase64` rejects
with the malformed-encoding error exactly when the extracted mime type or the
payload segment is empty (an absent payload — no comma in the input — is
falsy exactly like an empty one), and otherwise resolves with that mime type
and payload. -/
theorem fileToBase64_malformedIff (r afterColon : List Char)
    (h : (jsSplit ':' ((jsSplit ',' r).headD []))[1]? = some afterColon) :
    (fileToBase64 r = .error (.malformedEncoding encodeErrorMsg) ↔
      (((jsSplit ';' afterColon).headD []).isEmpty
        || jsFalsy ((jsSplit ',' r)[1]?)) = true) ∧
    ((((jsSplit ';' afterColon).headD []).isEmpty
        || jsFalsy ((jsSplit ',' r)[1]?)) = false →
      fileToBase64 r
        = .ok ⟨(jsSplit ';' afterColon).headD [], ((jsSplit ',' r)[1]?).getD []⟩) := by
  unfold fileToBase64
  rw [h]
  cases hb : ((jsSplit ';' afterColon).headD []).isEmpty
      || jsFalsy ((jsSplit ',' r)[1]?) with
  | true =>
    simp only [hb]
    simp
  | false =>
    simp only [hb]
    simp

/-- All six-bit groups of an eight-bit byte list are below 64. -/
theorem bytesToSextets_lt (bs : List Nat) (h : ∀ b ∈ bs, b < 256) :
    ∀ s ∈ bytesToSextets bs, s < 64 := by
  match bs with
  | [] => intro s hs; simp [bytesToSextets] at hs
  | [a] =>
    have ha := h a (by simp)
    intro s hs
    simp [bytesToSextets] at hs
    rcases hs with h1 | h1 <;> omega
  | [a, b] =>
    have ha := h a (by simp)
    have hb := h b (by simp)
    intro s hs
    simp [bytesToSextets] at hs
    rcases hs with h1 | h1 | h1 <;> omega
  | a :: b :: c :: rest =>
    have ha := h a (by simp)
    have hb := h b (by simp)
    have hc := h c (by simp)
    have ih := bytesToSextets_lt rest (fun x hx => h x (by simp [hx]))
    intro s hs
    simp only [bytesToSextets, List.mem_cons] at hs
    rcases hs with h1 | h1 | h1 | h1 | h1
    · omega
    · omega
    · omega
    · omega
    · exact ih s h1
termination_by bs.length

/-- Regrouping eight-bit bytes into six-bit groups and back is the identity. -/
theorem b64DecodeSextets_encode (bs : List Nat) (h : ∀ b ∈ bs, b < 256) :
    b64DecodeSextets (bytesToSextets bs) = some bs := by
  match bs with
  | [] => rfl
  | [a] =>
    have ha := h a (by simp)
    simp [bytesToSextets, b64DecodeSextets]
    omega
  | [a, b] =>
    have ha := h a (by simp)
    have hb := h b (by simp)
    simp [bytesToSextets, b64DecodeSextets]
    constructor <;> omega
  | a :: b :: c :: rest =>
    have ha := h a (by simp)
    have hb := h b (by simp)
    have hc := h c (by simp)
    have ih := b64DecodeSextets_encode rest (fun x hx => h x (by simp [hx]))
    simp [bytesToSextets, b64DecodeSextets, ih]
    refine ⟨?_, ?_, ?_⟩ <;> omega
termination_by bs.length

/-- Alphabet lookup inverts the alphabet character of a six-bit group. -/
theorem b64Index_b64Char : ∀ n < 64, b64Index (b64Char n) = some n := by decide

/-- Alphabet characters below 64 are recovered exactly by the scan. -/
theorem mapB64Index_map (sx : List Nat) (h : ∀ s ∈ sx, s < 64) :
    mapB64Index (sx.map b64Char) = some sx := by
  induction sx with
  | nil => rfl
  | cons s rest ih =>
    have hs := b64Index_b64Char s (h s (by simp))
    have ht := ih (fun x hx => h x (by simp [hx]))
    simp [mapB64Index, hs, ht]

/-- Alphabet characters of six-bit groups are never the padding character. -/
theorem filter_map_b64Char (sx : List Nat) (h : ∀ s ∈ sx, s < 64) :
    (sx.map b64Char).filter (fun c => c != '=') = sx.map b64Char := by
  rw [List.filter_eq_self]
  intro c hc
  rcases List.mem_map.1 hc with ⟨n, hn, he⟩
  have hlt := h n hn
  have hne : ∀ m < 64, (b64Char m != '=') = true := by decide
  rw [← he]
  exact hne n hlt

/-- The padding block is removed entirely by stripping `=`. -/
theorem filter_b64Padding (n : Nat) :
    (b64Padding n).filter (fun c => c != '=') = [] := by
  unfold b64Padding
  split_ifs <;> rfl

/-- A nonempty byte list has a nonempty six-bit regrouping. -/
theorem bytesToSextets_ne_nil (bs : List Nat) (hb : bs ≠ []) :
    bytesToSextets bs ≠ [] := by
  match bs with
  | [] => exact absurd rfl hb
  | [a] => simp [bytesToSextets]
  | [a, b] => simp [bytesToSextets]
  | a :: b :: c :: rest => simp [bytesToSextets]

/-- The encoded payload of a nonempty blob is nonempty. -/
theorem b64Encode_ne_nil (bs : List Nat) (hb : bs ≠ []) : b64Encode bs ≠ [] := by
  unfold b64Encode
  intro hcontra
  rcases List.append_eq_nil.1 hcontra with ⟨hmap, _⟩
  exact bytesToSextets_ne_nil bs hb (List.map_eq_nil_iff.1 hmap)

/-- The encoded payload never contains a comma, so the payload extraction of
`fileToBase64` recovers it whole. -/
theorem b64Encode_not_comma (bs : List Nat) (h : ∀ b ∈ bs, b < 256) :
    ',' ∉ b64Encode bs := by
  intro hm
  unfold b64Encode at hm
  rcases List.mem_append.1 hm with hm | hm
  · rcases List.mem_map.1 hm with ⟨n, hn, he⟩
    have hlt := bytesToSextets_lt bs h n hn
    have hne : ∀ m < 64, b64Char m ≠ ',' := by decide
    exact hne n hlt he
  · unfold b64Padding at hm
    revert hm
    split_ifs <;> simp

/-- Witness for C7 at the sample data URL. -/
theorem fileToBase64_malformedIff_witness :
    (jsSplit ':' ((jsSplit ',' sampleDataUrl).headD []))[1]?
      = some "image/png;base64".toList ∧
    ((fileToBase64 sampleDataUrl = .error (.malformedEncoding encodeErrorMsg) ↔
      (((jsSplit ';' "image/png;base64".toList).headD []).isEmpty
        || jsFalsy ((jsSplit ',' sampleDataUrl)[1]?)) = true) ∧
     ((((jsSplit ';' "image/png;base64".toList).headD []).isEmpty
        || jsFalsy ((jsSplit ',' sampleDataUrl)[1]?)) = false →
      fileToBase64 sampleDataUrl
        = .ok ⟨(jsSplit ';' "image/png;base64".toList).headD [],
               ((jsSplit ',' sampleDataUrl)[1]?).getD []⟩)) :=
  ⟨by decide, fileToBase64_malformedIff sampleDataUrl "image/png;base64".toList (by decide)⟩

/-- Claim C9: for every nonempty blob (its media type being a sane token:
nonempty and free of the three data-URL delimiter characters), reading it as
a data URL and parsing with the file encoder resolves with that media type
and the base64 payload, and base64-decoding the payload yields exactly the
original bytes. -/
theorem fileToBase64_roundTrip (mime : List Char) (bytes : List Nat)
    (hm : mime ≠ []) (h1 : ',' ∉ mime) (h2 : ':' ∉ mime) (h3 : ';' ∉ mime)
    (hb : bytes ≠ []) (hlt : ∀ b ∈ bytes, b < 256) :
    fileToBase64 (readAsDataURL mime bytes) = .ok ⟨mime, b64Encode bytes⟩ ∧
    b64Decode (b64Encode bytes) = some bytes := by
  constructor
  · have hpre : ',' ∉ "data:".toList ++ (mime ++ ";base64".toList) := by
      intro hc
      rcases List.mem_append.1 hc with hc | hc
      · revert hc; decide
      · rcases List.mem_append.1 hc with hc | hc
        · exact h1 hc
        · revert hc; decide
    have heq : readAsDataURL mime bytes =
        ("data:".toList ++ (mime ++ ";base64".toList)) ++ ',' :: b64Encode bytes := by
      unfold readAsDataURL
      simp only [List.append_assoc]
      rfl
    have hsplitComma : jsSplit ',' (readAsDataURL mime bytes) =
        [("data:".toList ++ (mime ++ ";base64".toList)), b64Encode bytes] := by
      rw [heq, jsSplit_append ',' _ _ hpre,
        jsSplit_of_not_mem ',' _ (b64Encode_not_comma bytes hlt)]
    have hcolonArg : "data:".toList ++ (mime ++ ";base64".toList) =
        "data".toList ++ ':' :: (mime ++ ";base64".toList) := rfl
    have hnc : ':' ∉ mime ++ ";base64".toList := by
      intro hc
      rcases List.mem_append.1 hc with hc | hc
      · exact h2 hc
      · revert hc; decide
    have hsplitColon : jsSplit ':' ("data:".toList ++ (mime ++ ";base64".toList)) =
        ["data".toList, mime ++ ";base64".toList] := by
      rw [hcolonArg, jsSplit_append ':' _ _ (by decide),
        jsSplit_of_not_mem ':' _ hnc]
    have hsemiArg : mime ++ ";base64".toList = mime ++ ';' :: "base64".toList := rfl
    have hsplitSemi : jsSplit ';' (mime ++ ";base64".toList) =
        [mime, "base64".toList] := by
      rw [hsemiArg, jsSplit_append ';' _ _ h3,
        jsSplit_of_not_mem ';' _ (by decide)]
    have hmimeNe : mime.isEmpty = false := by
      cases mime with
      | nil => exact absurd rfl hm
      | cons c rest => rfl
    have hpayNe : (b64Encode bytes).isEmpty = false := by
      cases hpe : b64Encode bytes with
      | nil => exact absurd hpe (b64Encode_ne_nil bytes hb)
      | cons c rest => rfl
    unfold fileToBase64
    rw [hsplitComma]
    simp only [List.headD, List.getElem?_cons_succ, List.getElem?_cons_zero,
      hsplitColon, hsplitSemi]
    simp [jsFalsy, hmimeNe, hpayNe]
  · unfold b64Decode b64Encode
    rw [List.filter_append, filter_map_b64Char _ (bytesToSextets_lt bytes hlt),
      filter_b64Padding, List.append_nil,
      mapB64Index_map _ (bytesToSextets_lt bytes hlt)]
    exact b64DecodeSextets_encode bytes hlt

/-- Witness for C9 at a three-byte blob with the sample media type. -/
theorem fileToBase64_roundTrip_witness :
    ("image/png".toList ≠ [] ∧ ',' ∉ "image/png".toList ∧
     ':' ∉ "image/png".toList ∧ ';' ∉ "image/png".toList ∧
     [77, 0, 255] ≠ ([] : List Nat) ∧ ∀ b ∈ [77, 0, 255], b < 256) ∧
    (fileToBase64 (readAsDataURL "image/png".toList [77, 0, 255])
        = .ok ⟨"image/png".toList, b64Encode [77, 0, 255]⟩ ∧
     b64Decode (b64Encode [77, 0, 255]) = some [77, 0, 255]) :=
  ⟨⟨by decide, by decide, by decide, by decide, by decide, by decide⟩,
   fileToBase64_roundTrip "image/png".toList [77, 0, 255]
     (by decide) (by decide) (by decide) (by decide) (by decide) (by decide)⟩

